import Mathlib

/-!
Verification of the laser-synchronization supervisory controller
(`laser_synch_task.py`) and of the motor-movement callback
(`check_motor_movement.py`).

The embedding follows the Python source closely.  Numeric PV values and
waveform samples are modelled as rationals (Python float comparisons are
exact order comparisons, so the branch structure is preserved); an external
EPICS read (`caget`) may raise, return `None`, or return a value; a cycle
that raises is an `Except.error` carrying the state as mutated up to the
raise point, exactly as the in-place Python mutations leave it.
-/

/-- Outcome of an external EPICS `caget`: the call may raise an exception,
return `None` (absent), or return a value. -/
inductive Read (α : Type) where
  | raise : Read α
  | absent : Read α
  | value : α → Read α
deriving DecidableEq

/-- Python truthiness of an optional numeric PV value: `None` and `0` are
falsy, every other number is truthy. -/
def pyTruthy : Option ℚ → Bool
  | none => false
  | some x => x != 0

/-- Python `v or d` on an optional numeric PV read: the value when truthy,
otherwise the default `d` (so both an absent read and an exact `0` fall back
to `d`). -/
def pyOr (v : Option ℚ) (d : ℚ) : ℚ :=
  match v with
  | none => d
  | some x => if x = 0 then d else x

/-- Python `abs()` on a rational, written so it evaluates by kernel
reduction. -/
def ratAbs (x : ℚ) : ℚ := if x < 0 then -x else x

/-- Python `int()` truncation toward zero of a rational. -/
def pyInt (x : ℚ) : Int :=
  if 0 ≤ x then x.floor else x.ceil

/-- Python list slice `l[a:b]` with negative-index wrapping and clamping. -/
def pySlice (l : List ℚ) (a b : Int) : List ℚ :=
  let n : Int := l.length
  let norm : Int → Nat := fun i => (if i < 0 then max (n + i) 0 else min i n).toNat
  (l.drop (norm a)).take (norm b - norm a)

/-- Arithmetic mean, `np.mean`.  (On an empty list numpy yields NaN; the
model returns 0 there — no claim depends on that value, and the one
`np.mean` call on a possibly-empty list feeds only the correction value.) -/
def npMean (l : List ℚ) : ℚ := l.sum / l.length

/-- Maximum of a waveform, `np.max`; `none` on an empty waveform, where
numpy raises `ValueError`. -/
def npMax : List ℚ → Option ℚ
  | [] => none
  | h :: t => some (t.foldl max h)

/-- Sliding-window push, `buff.append(value)` followed by
`if len(buff) > cap: buff.pop(0)` (lines 127-129, 139-141 and 147-149 of
`laser_synch_task.py`). -/
def pushBuf (cap : Nat) (buff : List ℚ) (v : ℚ) : List ℚ :=
  let b := buff ++ [v]
  if cap < b.length then b.drop 1 else b

/-- Iterated `pushBuf` over a sequence of pushed values. -/
def pushMany (cap : Nat) (buff : List ℚ) (vs : List ℚ) : List ℚ :=
  vs.foldl (pushBuf cap) buff

/-- The task's own process variables read and written by the cycle
(`get_pv` / `set_pv`); a field is `none` when the PV has no value. -/
structure PVS where
  enable : Option ℚ
  pll_on : Option ℚ
  avg_reset : Option ℚ
  avg_start : Option ℚ
  avg_stop : Option ℚ
  corr : Option ℚ
  corr_avg : Option ℚ
  pll_err_tsh : Option ℚ
  laser_amp_tsh : Option ℚ
  tracking_on : Option ℚ
  tracking_tsh : Option ℚ
  tracking_step : Option ℚ
deriving DecidableEq

/-- Task parameters fixed at initialization (`initialize`, lines 27-34):
window sizes and the external device name bindings (an empty string means
the binding is absent and the feature disabled). -/
structure Config where
  avg_num : Nat
  interlock_buff_length : Nat
  prefix_redpitaya : String
  prefix_motor : String
  pv_laser_amp_llrf : String
deriving DecidableEq

/-- Mutable per-task state owned by the cycle: the three sliding-window
buffers (lines 37-39) and the PV table. -/
structure SynchState where
  corr_buff : List ℚ
  err_buff : List ℚ
  laser_amp_buff : List ℚ
  pvs : PVS
deriving DecidableEq

/-- External signals acquired during one cycle. -/
structure CycleInput where
  pll_read : Read Bool
  wave_corr : Read (List ℚ)
  laser_amp : Read ℚ
  wave_err : Read (List ℚ)
deriving DecidableEq

/-- Externally visible outcome of one completed cycle: whether the
interlock forced the PLL off (the `DIGITAL_P4_STATE_CMD "0"` caput), the
final PLL view, the tracking flag as read after the interlock, the motor
relative-move command if any (`m0.RLV`), and the status message. -/
structure CycleOutput where
  forceOff : Bool
  pllFinal : Bool
  trackingOn : Bool
  motorStep : Option ℚ
  message : String
deriving DecidableEq

deriving instance DecidableEq for Except

/-- Lines 99-105: read the PLL status from the RedPitaya (skipped, hence
`False`, when no RedPitaya binding is configured) and publish `PLL_ON`.
A raising read aborts the cycle before any mutation; an absent read aborts
at `int(pll_on)` (a `TypeError` on `None`), also before any mutation. -/
def pllStage (cfg : Config) (st : SynchState) (inp : CycleInput) :
    Except (SynchState × String) (SynchState × Bool) :=
  match (if cfg.prefix_redpitaya.isEmpty then Read.value false else inp.pll_read) with
  | .raise => .error (st, "caget DIGITAL_P4_STATE_STATUS failed")
  | .absent => .error (st, "int() argument must not be NoneType")
  | .value pll_on =>
      .ok ({ st with pvs := { st.pvs with pll_on := some (if pll_on then 1 else 0) } }, pll_on)

/-- Lines 107-111: on a truthy `AVG_RESET` request, clear the correction
buffer and acknowledge by writing the PV back to 0. -/
def resetStage (st : SynchState) : SynchState :=
  if pyTruthy st.pvs.avg_reset then
    { st with corr_buff := [], pvs := { st.pvs with avg_reset := some 0 } }
  else st

/-- Lines 113-133: acquire the correction waveform, average the configured
slice, publish `CORR`, push into the correction buffer (window `avg_num`)
and publish `CORR_AVG`.  An absent waveform skips the whole block. -/
def corrStage (cfg : Config) (st : SynchState) (inp : CycleInput) :
    Except (SynchState × String) SynchState :=
  if cfg.prefix_redpitaya.isEmpty then .ok st else
    match inp.wave_corr with
    | .raise => .error (st, "caget IN2_DATA_MONITOR failed")
    | .absent => .ok st
    | .value wave_corr =>
        let avg_start := pyInt (pyOr st.pvs.avg_start 0)
        let avg_stop := pyInt (pyOr st.pvs.avg_stop (wave_corr.length : ℚ))
        let corr_value := npMean (pySlice wave_corr avg_start (avg_stop + 1))
        let corr_buff := pushBuf cfg.avg_num st.corr_buff corr_value
        .ok { st with corr_buff := corr_buff,
                      pvs := { st.pvs with corr := some corr_value,
                                           corr_avg := some (npMean corr_buff) } }

/-- Lines 136-141: read the laser amplitude and push it into the amplitude
buffer (window `interlock_buff_length`); an absent read contributes
nothing. -/
def ampStage (cfg : Config) (st : SynchState) (inp : CycleInput) :
    Except (SynchState × String) SynchState :=
  if cfg.pv_laser_amp_llrf.isEmpty then .ok st else
    match inp.laser_amp with
    | .raise => .error (st, "caget laser amplitude failed")
    | .absent => .ok st
    | .value laser_amp =>
        .ok { st with
              laser_amp_buff := pushBuf cfg.interlock_buff_length st.laser_amp_buff laser_amp }

/-- Lines 143-149: read the error waveform and push its maximum into the
error buffer (window `interlock_buff_length`); an absent read contributes
nothing; `np.max` of an empty waveform raises. -/
def errStage (cfg : Config) (st : SynchState) (inp : CycleInput) :
    Except (SynchState × String) SynchState :=
  if cfg.prefix_redpitaya.isEmpty then .ok st else
    match inp.wave_err with
    | .raise => .error (st, "caget IN1_DATA_MONITOR failed")
    | .absent => .ok st
    | .value wave_err =>
        match npMax wave_err with
        | none => .error (st, "zero-size array to reduction operation maximum")
        | some m =>
            .ok { st with err_buff := pushBuf cfg.interlock_buff_length st.err_buff m }

/-- Lines 153-159: the interlock trip condition.  Thresholds come from the
`PLL_ERR_TSH` and `LASER_AMP_TSH` PVs with Python `or` defaults 1.0 and
0.0; the trip fires when the count of error samples strictly over the
error threshold, or of amplitude samples strictly under the amplitude
threshold, equals `interlock_buff_length`. -/
def interlockCheck (cfg : Config) (pvs : PVS) (err_buff laser_amp_buff : List ℚ) : Bool :=
  let pll_err_tsh := pyOr pvs.pll_err_tsh 1
  let laser_amp_tsh := pyOr pvs.laser_amp_tsh 0
  let err_count := err_buff.countP (fun e => decide (pll_err_tsh < e))
  let amp_count := laser_amp_buff.countP (fun a => decide (a < laser_amp_tsh))
  decide (err_count = cfg.interlock_buff_length ∨ amp_count = cfg.interlock_buff_length)

/-- Lines 170-179: the tracking decision.  When `TRACKING_ON` is truthy,
read `CORR_AVG`, the deadband `TRACKING_TSH` and the step `TRACKING_STEP`
(Python `or` defaults 0.0, 0.1 and 0.01); a motor relative move of
`tracking_step` (positive average) or `-tracking_step` (otherwise) is
issued exactly when the average magnitude exceeds the deadband and a motor
binding is configured. -/
def trackingCheck (cfg : Config) (pvs : PVS) : Option ℚ :=
  if pyTruthy pvs.tracking_on then
    let corr_avg := pyOr pvs.corr_avg 0
    let tracking_tsh := pyOr pvs.tracking_tsh (1/10)
    let tracking_step := pyOr pvs.tracking_step (1/100)
    if tracking_tsh < ratAbs corr_avg ∧ ¬cfg.prefix_motor.isEmpty = true then
      some (if 0 < corr_avg then tracking_step else -tracking_step)
    else none
  else none

/-- Lines 151-182: interlock evaluation (only while the PLL reports itself
on), the forced `DIGITAL_P4_STATE_CMD "0"` caput on a trip, the zeroing of
`TRACKING_ON` whenever the PLL view is off, the tracking decision and the
status message. -/
def superviseStage (cfg : Config) (pll_on : Bool) (st : SynchState) : SynchState × CycleOutput :=
  let tripped := pll_on && interlockCheck cfg st.pvs st.err_buff st.laser_amp_buff
  let forceOff := tripped && !cfg.prefix_redpitaya.isEmpty
  let pll1 := pll_on && !tripped
  let st1 := if pll1 then st else { st with pvs := { st.pvs with tracking_on := some 0 } }
  let trackingOn := pyTruthy st1.pvs.tracking_on
  (st1,
   { forceOff := forceOff
     pllFinal := pll1
     trackingOn := trackingOn
     motorStep := trackingCheck cfg st1.pvs
     message := "PLL:" ++ (if pll1 then "ON" else "OFF") ++
                " Track:" ++ (if trackingOn then "ON" else "OFF") })

/-- One `_process_cycle` call (lines 97-182): the acquisition and buffer
stages in source order, then the supervisory stage.  An `Except.error`
carries the state exactly as mutated up to the raise point together with
the exception text. -/
def processCycle (cfg : Config) (st : SynchState) (inp : CycleInput) :
    Except (SynchState × String) (SynchState × CycleOutput) :=
  match pllStage cfg st inp with
  | .error e => .error e
  | .ok (st1, pll_on) =>
    match corrStage cfg (resetStage st1) inp with
    | .error e => .error e
    | .ok st3 =>
      match ampStage cfg st3 inp with
      | .error e => .error e
      | .ok st4 =>
        match errStage cfg st4 inp with
        | .error e => .error e
        | .ok st5 => .ok (superviseStage cfg pll_on st5)

/-- Task status values published through `set_status`. -/
inductive TaskStatus where
  | running
  | error
  | ended
deriving DecidableEq

/-- State visible at the `run` loop boundary: the cycle-owned state, the
cycle counter, the status enum and the message PV. -/
structure TaskState where
  synch : SynchState
  cycle : Nat
  status : TaskStatus
  message : String
deriving DecidableEq

/-- One iteration of the `run` loop (lines 78-95): a disabled task skips
the cycle entirely; a completed cycle commits its state, publishes its
message and steps the cycle counter; a raising cycle keeps the partially
mutated state, sets status `ERROR`, publishes the diagnostic message and
does not step the counter. -/
def runIteration (cfg : Config) (ts : TaskState) (inp : CycleInput) : TaskState :=
  if pyTruthy ts.synch.pvs.enable then
    match processCycle cfg ts.synch inp with
    | .ok (st, out) =>
        { ts with synch := st, message := out.message, cycle := ts.cycle + 1 }
    | .error (st, e) =>
        { ts with synch := st, status := .error, message := "Error: " ++ e }
  else ts

/-- The `while self.running` loop: iterate `runIteration` over the stream
of per-cycle inputs.  The loop body never rethrows, so the recursion is
structural — one bad cycle cannot terminate the task. -/
def runLoop (cfg : Config) : TaskState → List CycleInput → TaskState
  | ts, [] => ts
  | ts, inp :: rest => runLoop cfg (runIteration cfg ts inp) rest

/-- Closed loop of controller and PLL hardware: the `DIGITAL_P4_STATE_STATUS`
read returns the hardware latch, and the only write the task ever makes to
it is the forcing `DIGITAL_P4_STATE_CMD "0"`; external re-enable is outside
this step.  A raising cycle leaves the latch untouched. -/
def plantStep (cfg : Config) (s : Bool × SynchState) (inp : CycleInput) : Bool × SynchState :=
  match processCycle cfg s.2 { inp with pll_read := .value s.1 } with
  | .error (st, _) => (s.1, st)
  | .ok (st, out) => (s.1 && !out.forceOff, st)

/-- Iterated closed-loop cycles. -/
def plantRun (cfg : Config) (s : Bool × SynchState) (inps : List CycleInput) : Bool × SynchState :=
  inps.foldl (plantStep cfg) s

/-- Fold step for a run of cycles that must all complete: `none` once any
cycle raises, otherwise the state and the last cycle's output. -/
def okStep (cfg : Config) (acc : Option (SynchState × Option CycleOutput)) (inp : CycleInput) :
    Option (SynchState × Option CycleOutput) :=
  match acc with
  | none => none
  | some (st, _) =>
    match processCycle cfg st inp with
    | .error _ => none
    | .ok (st', out) => some (st', some out)

/-- A run of consecutive cycles, all of which complete without raising. -/
def runOk (cfg : Config) (st : SynchState) (inps : List CycleInput) :
    Option (SynchState × Option CycleOutput) :=
  inps.foldl (okStep cfg) (some (st, none))

/-- State the motor-movement callback of `check_motor_movement.py` reads:
the task cycle counter (`get_cycle`, an external interface of the task
base), the `ENABLE` PV and the configured switchoff device names. -/
structure MotorTaskState where
  cycle : Nat
  enable : Option ℚ
  switches : List String
deriving DecidableEq

/-- Observable effects of one `motor_moved_callback` invocation: whether
the movement was logged, and the `set(0)` commands issued to switchoff
devices. -/
structure CallbackEffects where
  logged : Bool
  switch_cmds : List (String × ℚ)
deriving DecidableEq

/-- Lines 65-77 of `check_motor_movement.py`: the callback does nothing at
all unless `get_cycle() > 10`; past that it logs the movement, and — when
the task is enabled — sets every switchoff device to 0. -/
def motor_moved_callback (st : MotorTaskState) : CallbackEffects :=
  if 10 < st.cycle then
    if pyTruthy st.enable then
      { logged := true, switch_cmds := st.switches.map (fun n => (n, (0 : ℚ))) }
    else
      { logged := true, switch_cmds := [] }
  else
    { logged := false, switch_cmds := [] }

/-- PVS with the four defaultable supervision constants blanked; used to
compare supervision runs that differ only in one of those constants. -/
def maskPvs (p : PVS) : PVS :=
  { p with pll_err_tsh := none, laser_amp_tsh := none,
           tracking_tsh := none, tracking_step := none }

/-- Observation of a supervision result that hides the four defaultable
constants themselves (they are data, not behavior): the buffers, the
remaining PVs and the full cycle output. -/
def obsSup (r : SynchState × CycleOutput) : SynchState × CycleOutput :=
  ({ r.1 with pvs := maskPvs r.1.pvs }, r.2)

/-- Suffix window of the last `cap` elements of a list (specification-side
description of what the push/evict discipline retains). -/
def lastWindow (cap : Nat) (l : List ℚ) : List ℚ :=
  l.drop (l.length - cap)

/-- PV table with every PV absent. -/
def pvsNone : PVS :=
  { enable := none, pll_on := none, avg_reset := none, avg_start := none,
    avg_stop := none, corr := none, corr_avg := none, pll_err_tsh := none,
    laser_amp_tsh := none, tracking_on := none, tracking_tsh := none,
    tracking_step := none }

/-- Freshly initialized cycle state: empty buffers, no PV values. -/
def stEmpty : SynchState :=
  { corr_buff := [], err_buff := [], laser_amp_buff := [], pvs := pvsNone }

/-- Concrete configuration: RedPitaya bound, interlock window 2, no motor,
no laser-amplitude PV. -/
def cfgRP : Config :=
  { avg_num := 10, interlock_buff_length := 2, prefix_redpitaya := "RP",
    prefix_motor := "", pv_laser_amp_llrf := "" }

/-- Concrete configuration: as `cfgRP` but with a motor bound. -/
def cfgRPM : Config := { cfgRP with prefix_motor := "M" }

/-- Concrete configuration: as `cfgRP` but with a laser-amplitude PV bound. -/
def cfgRPA : Config := { cfgRP with pv_laser_amp_llrf := "AMP" }

/-- Concrete configuration: as `cfgRP` but with interlock window 1. -/
def cfgL1 : Config := { cfgRP with interlock_buff_length := 1 }

/-- Concrete cycle input with every acquisition absent and the PLL off. -/
def inpQuiet : CycleInput :=
  { pll_read := .value false, wave_corr := .absent, laser_amp := .absent,
    wave_err := .absent }

/-- Concrete cycle input whose very first acquisition (the PLL status read)
raises. -/
def inpRaise : CycleInput := { inpQuiet with pll_read := .raise }

/-- Concrete cycle input: PLL on, an error waveform `[3]`, nothing else. -/
def inpErr3 : CycleInput :=
  { pll_read := .value true, wave_corr := .absent, laser_amp := .absent,
    wave_err := .value [3] }

/-- Concrete starting state with one prior error sample `2`. -/
def w1st : SynchState := { stEmpty with err_buff := [2] }

/-- State after running `cfgRP`/`w1st`/`inpErr3` through one cycle. -/
def w1stF : SynchState :=
  { corr_buff := [], err_buff := [2, 3], laser_amp_buff := [],
    pvs := { pvsNone with pll_on := some 1, tracking_on := some 0 } }

/-- Output of that tripping cycle. -/
def w1out : CycleOutput :=
  { forceOff := true, pllFinal := false, trackingOn := false,
    motorStep := none, message := "PLL:OFF Track:OFF" }

/-- State after a tripping cycle from the empty state under window 1. -/
def w8stF : SynchState := { w1stF with err_buff := [3] }

/-- Concrete state with tracking enabled and a published correction
average of 5. -/
def c3st : SynchState :=
  { stEmpty with
    pvs := { pvsNone with
             tracking_on := some 1
             corr_avg := some 5
             tracking_tsh := some 1
             tracking_step := some 2 } }

/-- Concrete cycle input: PLL on, every acquisition absent. -/
def c3inp : CycleInput := { inpQuiet with pll_read := .value true }

/-- State after running `c3st` through one quiet PLL-on cycle. -/
def c3stF : SynchState := { c3st with pvs := { c3st.pvs with pll_on := some 1 } }

/-- Output of that cycle when no motor is bound: tracking on, no trip, no
step. -/
def c3outNo : CycleOutput :=
  { forceOff := false, pllFinal := true, trackingOn := true,
    motorStep := none, message := "PLL:ON Track:ON" }

/-- Output of the same cycle when a motor is bound: a positive step of the
configured size is issued. -/
def c3outGo : CycleOutput := { c3outNo with motorStep := some 2 }

/-- Concrete cycle input whose amplitude read succeeds with value 5 and
whose error-waveform read then raises. -/
def c5inp : CycleInput :=
  { pll_read := .value false, wave_corr := .absent, laser_amp := .value 5,
    wave_err := .raise }

/-- State carried by that failed cycle's exception: the amplitude sample
was already appended before the raise. -/
def c5stErr : SynchState :=
  { corr_buff := [], err_buff := [], laser_amp_buff := [5],
    pvs := { pvsNone with pll_on := some 0 } }

/-- State after one non-tripping cycle from the empty state under
`cfgRPA` and input `inpErr3`. -/
def w6stF : SynchState :=
  { stEmpty with err_buff := [3], pvs := { pvsNone with pll_on := some 1 } }

/-- Output of that non-tripping cycle. -/
def w6out : CycleOutput :=
  { forceOff := false, pllFinal := true, trackingOn := false,
    motorStep := none, message := "PLL:ON Track:OFF" }

/-- Concrete enabled task state at cycle 7. -/
def ts7 : TaskState :=
  { synch := { stEmpty with pvs := { pvsNone with enable := some 1 } },
    cycle := 7, status := .running, message := "" }

/-- A cycle input that contributes the violating error sample `m`: the PLL
reports itself active and the error waveform is present with maximum `m`. -/
def contributes (inp : CycleInput) (m : ℚ) : Prop :=
  inp.pll_read = Read.value true ∧
  ∃ w, inp.wave_err = Read.value w ∧ npMax w = some m

/-- A cycle input that contributes the violating amplitude sample `v`: the
PLL reports itself active and the laser-amplitude read returns `v`. -/
def contributesAmp (inp : CycleInput) (v : ℚ) : Prop :=
  inp.pll_read = Read.value true ∧ inp.laser_amp = Read.value v

/-- Configuration with the amplitude PV bound and interlock window 1. -/
def cfgA1 : Config := { cfgRPA with interlock_buff_length := 1 }

/-- Concrete state with a configured amplitude threshold of 1. -/
def wAmpSt : SynchState :=
  { stEmpty with pvs := { pvsNone with laser_amp_tsh := some 1 } }

/-- Concrete cycle input: PLL on, an amplitude sample 0, nothing else. -/
def inpAmp0 : CycleInput :=
  { pll_read := .value true, wave_corr := .absent, laser_amp := .value 0,
    wave_err := .absent }

/-- State after the amplitude-tripping cycle from `wAmpSt` under `cfgA1`. -/
def wAmpStF : SynchState :=
  { corr_buff := [], err_buff := [], laser_amp_buff := [0],
    pvs := { pvsNone with
             pll_on := some 1
             laser_amp_tsh := some 1
             tracking_on := some 0 } }

/-- Output of that amplitude-tripping cycle. -/
def wAmpOut : CycleOutput :=
  { forceOff := true, pllFinal := false, trackingOn := false,
    motorStep := none, message := "PLL:OFF Track:OFF" }

/-- A push never grows the buffer beyond its capacity. -/
theorem pushBuf_length_le (cap : Nat) (buff : List ℚ) (v : ℚ)
    (h : buff.length ≤ cap) : (pushBuf cap buff v).length ≤ cap := by
  simp only [pushBuf]
  split
  · simp
    try omega
  · simp_all
    try omega

/-- A list already within capacity is its own suffix window. -/
theorem lastWindow_of_le (cap : Nat) (l : List ℚ) (h : l.length ≤ cap) :
    lastWindow cap l = l := by
  unfold lastWindow
  rw [Nat.sub_eq_zero_of_le h, List.drop_zero]

/-- Dropping the evicted head before appending more samples does not change
the suffix window. -/
theorem lastWindow_push_absorb (cap : Nat) (l m : List ℚ) (hl : l.length = cap + 1) :
    lastWindow cap (l.drop 1 ++ m) = lastWindow cap (l ++ m) := by
  unfold lastWindow
  have h1 : (l.drop 1 ++ m).length - cap = m.length := by
    simp [hl]
  have h2 : (l ++ m).length - cap = m.length + 1 := by
    simp [hl]
    try omega
  rw [h1, h2]
  have h3 : (l ++ m).drop (m.length + 1) = ((l ++ m).drop 1).drop m.length := by
    rw [List.drop_drop]
    congr 1
    omega
  have h4 : (1 : Nat) ≤ l.length := by omega
  rw [h3, List.drop_append_of_le_length h4]

/-- Under the capacity invariant a push keeps exactly the suffix window. -/
theorem pushBuf_eq_lastWindow (cap : Nat) (buff : List ℚ) (v : ℚ)
    (h : buff.length ≤ cap) :
    pushBuf cap buff v = lastWindow cap (buff ++ [v]) := by
  simp only [pushBuf]
  split
  · unfold lastWindow
    congr 1
    simp_all
    try omega
  · rw [lastWindow_of_le]
    simp_all
    try omega

/-- Iterated pushes keep exactly the suffix window of everything seen. -/
theorem pushMany_eq_lastWindow (cap : Nat) :
    ∀ (vs buff : List ℚ), buff.length ≤ cap →
      pushMany cap buff vs = lastWindow cap (buff ++ vs)
  | [], buff, h => by
      unfold pushMany
      simp [lastWindow_of_le cap buff h]
  | v :: vs, buff, h => by
      have hstep : pushMany cap buff (v :: vs) = pushMany cap (pushBuf cap buff v) vs := rfl
      rw [hstep, pushMany_eq_lastWindow cap vs _ (pushBuf_length_le cap buff v h),
          pushBuf_eq_lastWindow cap buff v h]
      have hcons : buff ++ v :: vs = (buff ++ [v]) ++ vs := by simp
      rw [hcons]
      rcases Nat.lt_or_ge buff.length cap with hlt | hge
      · rw [lastWindow_of_le cap (buff ++ [v]) (by simp; omega)]
      · have hbc : buff.length = cap := le_antisymm h hge
        have hl : (buff ++ [v]).length = cap + 1 := by simp [hbc]
        have hw : lastWindow cap (buff ++ [v]) = (buff ++ [v]).drop 1 := by
          unfold lastWindow
          rw [hl]
          congr 1
          omega
        rw [hw, lastWindow_push_absorb cap (buff ++ [v]) vs hl]

/-- A strict-violation count can reach the window length only when the
window is full and every sample violates. -/
theorem countP_window_iff {α : Type} (p : α → Bool) (l : List α) (n : Nat)
    (h : l.length ≤ n) :
    l.countP p = n ↔ l.length = n ∧ ∀ a ∈ l, p a = true := by
  constructor
  · intro hc
    have h1 : l.countP p ≤ l.length := List.countP_le_length p
    have h2 : l.length = n := le_antisymm h (hc ▸ h1)
    refine ⟨h2, List.countP_eq_length.mp ?_⟩
    rw [hc, h2]
  · rintro ⟨h1, h2⟩
    rw [List.countP_eq_length.mpr h2, h1]

/-- The trip condition fires exactly when one of the two windows is full
of strict violations of its (defaulted) threshold. -/
theorem interlockCheck_iff (cfg : Config) (pvs : PVS) (errb ampb : List ℚ)
    (he : errb.length ≤ cfg.interlock_buff_length)
    (ha : ampb.length ≤ cfg.interlock_buff_length) :
    interlockCheck cfg pvs errb ampb = true ↔
      (errb.length = cfg.interlock_buff_length ∧
        ∀ e ∈ errb, pyOr pvs.pll_err_tsh 1 < e) ∨
      (ampb.length = cfg.interlock_buff_length ∧
        ∀ a ∈ ampb, a < pyOr pvs.laser_amp_tsh 0) := by
  simp only [interlockCheck, decide_eq_true_eq]
  rw [countP_window_iff _ errb _ he, countP_window_iff _ ampb _ ha]
  simp

/-- The `pllStage` result state only records the `PLL_ON` write. -/
theorem pllStage_ok_state {cfg : Config} {st : SynchState} {inp : CycleInput}
    {st1 : SynchState} {b : Bool}
    (h : pllStage cfg st inp = .ok (st1, b)) :
    st1 = { st with pvs := { st.pvs with pll_on := some (if b then 1 else 0) } } := by
  unfold pllStage at h
  split at h
  · simp at h
  · simp at h
  · simp only [Except.ok.injEq, Prod.mk.injEq] at h
    obtain ⟨h1, h2⟩ := h
    rw [← h1, h2]

/-- With a RedPitaya bound, the PLL flag comes from the status read. -/
theorem pllStage_ok_value {cfg : Config} {st : SynchState} {inp : CycleInput}
    {st1 : SynchState} {b : Bool}
    (hrp : cfg.prefix_redpitaya.isEmpty = false)
    (h : pllStage cfg st inp = .ok (st1, b)) :
    inp.pll_read = .value b := by
  unfold pllStage at h
  rw [hrp] at h
  simp only [Bool.false_eq_true, if_false] at h
  split at h
  · simp at h
  · simp at h
  · next c heq =>
      simp only [Except.ok.injEq, Prod.mk.injEq] at h
      rw [heq, h.2]

/-- A failing PLL-status stage has mutated nothing. -/
theorem pllStage_error_state {cfg : Config} {st : SynchState} {inp : CycleInput}
    {s : SynchState} {e : String}
    (h : pllStage cfg st inp = .error (s, e)) : s = st := by
  unfold pllStage at h
  split at h <;> simp_all

/-- When the PLL status read raises and a RedPitaya is bound, the stage
fails with the untouched state. -/
theorem pllStage_raise {cfg : Config} {st : SynchState} {inp : CycleInput}
    (hrp : cfg.prefix_redpitaya.isEmpty = false)
    (hr : inp.pll_read = .raise) :
    pllStage cfg st inp = .error (st, "caget DIGITAL_P4_STATE_STATUS failed") := by
  unfold pllStage
  rw [hrp]
  simp [hr]

/-- The reset stage touches only the correction buffer and `AVG_RESET`. -/
theorem resetStage_frame (st : SynchState) :
    (resetStage st).err_buff = st.err_buff ∧
    (resetStage st).laser_amp_buff = st.laser_amp_buff ∧
    (resetStage st).pvs.pll_err_tsh = st.pvs.pll_err_tsh ∧
    (resetStage st).pvs.laser_amp_tsh = st.pvs.laser_amp_tsh ∧
    (resetStage st).pvs.tracking_on = st.pvs.tracking_on ∧
    (resetStage st).pvs.tracking_tsh = st.pvs.tracking_tsh ∧
    (resetStage st).pvs.tracking_step = st.pvs.tracking_step := by
  unfold resetStage
  split <;> simp

/-- A completed correction stage leaves the interlock buffers and the
gating PVs untouched. -/
theorem corrStage_ok_frame {cfg : Config} {st : SynchState} {inp : CycleInput}
    {st' : SynchState} (h : corrStage cfg st inp = .ok st') :
    st'.err_buff = st.err_buff ∧
    st'.laser_amp_buff = st.laser_amp_buff ∧
    st'.pvs.pll_err_tsh = st.pvs.pll_err_tsh ∧
    st'.pvs.laser_amp_tsh = st.pvs.laser_amp_tsh ∧
    st'.pvs.tracking_on = st.pvs.tracking_on ∧
    st'.pvs.tracking_tsh = st.pvs.tracking_tsh ∧
    st'.pvs.tracking_step = st.pvs.tracking_step := by
  unfold corrStage at h
  split at h
  · simp only [Except.ok.injEq] at h
    rw [← h]
    exact ⟨rfl, rfl, rfl, rfl, rfl, rfl, rfl⟩
  · split at h
    · simp at h
    · simp only [Except.ok.injEq] at h
      rw [← h]
      exact ⟨rfl, rfl, rfl, rfl, rfl, rfl, rfl⟩
    · simp only [Except.ok.injEq] at h
      rw [← h]
      exact ⟨rfl, rfl, rfl, rfl, rfl, rfl, rfl⟩

/-- A failing correction stage has not mutated the state beyond the point
it received. -/
theorem corrStage_error_state {cfg : Config} {st : SynchState} {inp : CycleInput}
    {s : SynchState} {e : String}
    (h : corrStage cfg st inp = .error (s, e)) : s = st := by
  unfold corrStage at h
  split at h
  · simp at h
  · split at h <;> simp_all

/-- A completed amplitude stage: the PV table and the other buffers are
untouched, and the amplitude buffer either is unchanged or took one push. -/
theorem ampStage_ok_frame {cfg : Config} {st : SynchState} {inp : CycleInput}
    {st' : SynchState} (h : ampStage cfg st inp = .ok st') :
    st'.err_buff = st.err_buff ∧ st'.corr_buff = st.corr_buff ∧
    st'.pvs = st.pvs ∧
    (st'.laser_amp_buff = st.laser_amp_buff ∨
      ∃ v, st'.laser_amp_buff = pushBuf cfg.interlock_buff_length st.laser_amp_buff v) := by
  unfold ampStage at h
  split at h
  · simp only [Except.ok.injEq] at h
    rw [← h]
    exact ⟨rfl, rfl, rfl, Or.inl rfl⟩
  · split at h
    · simp at h
    · simp only [Except.ok.injEq] at h
      rw [← h]
      exact ⟨rfl, rfl, rfl, Or.inl rfl⟩
    · next v heq =>
        simp only [Except.ok.injEq] at h
        rw [← h]
        exact ⟨rfl, rfl, rfl, Or.inr ⟨v, rfl⟩⟩

/-- A failing amplitude stage has not mutated the state it received. -/
theorem ampStage_error_state {cfg : Config} {st : SynchState} {inp : CycleInput}
    {s : SynchState} {e : String}
    (h : ampStage cfg st inp = .error (s, e)) : s = st := by
  unfold ampStage at h
  split at h
  · simp at h
  · split at h <;> simp_all

/-- A completed error stage: the PV table and the other buffers are
untouched, and the error buffer either is unchanged or took one push. -/
theorem errStage_ok_frame {cfg : Config} {st : SynchState} {inp : CycleInput}
    {st' : SynchState} (h : errStage cfg st inp = .ok st') :
    st'.laser_amp_buff = st.laser_amp_buff ∧ st'.corr_buff = st.corr_buff ∧
    st'.pvs = st.pvs ∧
    (st'.err_buff = st.err_buff ∨
      ∃ m, st'.err_buff = pushBuf cfg.interlock_buff_length st.err_buff m) := by
  unfold errStage at h
  split at h
  · simp only [Except.ok.injEq] at h
    rw [← h]
    exact ⟨rfl, rfl, rfl, Or.inl rfl⟩
  · split at h
    · simp at h
    · simp only [Except.ok.injEq] at h
      rw [← h]
      exact ⟨rfl, rfl, rfl, Or.inl rfl⟩
    · split at h
      · simp at h
      · next m heq =>
          simp only [Except.ok.injEq] at h
          rw [← h]
          exact ⟨rfl, rfl, rfl, Or.inr ⟨m, rfl⟩⟩

/-- A failing error stage has not mutated the state it received; in
particular its own buffer never grew. -/
theorem errStage_error_state {cfg : Config} {st : SynchState} {inp : CycleInput}
    {s : SynchState} {e : String}
    (h : errStage cfg st inp = .error (s, e)) : s = st := by
  unfold errStage at h
  split at h
  · simp at h
  · split at h
    · simp_all
    · simp at h
    · split at h <;> simp_all

/-- An absent amplitude read leaves the amplitude stage a no-op. -/
theorem ampStage_absent {cfg : Config} {st : SynchState} {inp : CycleInput}
    (ha : inp.laser_amp = .absent) : ampStage cfg st inp = .ok st := by
  unfold ampStage
  split
  · rfl
  · rw [ha]

/-- With an amplitude PV bound, a present amplitude sample is pushed. -/
theorem ampStage_value {cfg : Config} {st : SynchState} {inp : CycleInput} {v : ℚ}
    (hb : cfg.pv_laser_amp_llrf.isEmpty = false)
    (ha : inp.laser_amp = .value v) :
    ampStage cfg st inp =
      .ok { st with laser_amp_buff := pushBuf cfg.interlock_buff_length st.laser_amp_buff v } := by
  unfold ampStage
  rw [hb, ha]
  rfl

/-- An absent error-waveform read leaves the error stage a no-op. -/
theorem errStage_absent {cfg : Config} {st : SynchState} {inp : CycleInput}
    (ha : inp.wave_err = .absent) : errStage cfg st inp = .ok st := by
  unfold errStage
  split
  · rfl
  · rw [ha]

/-- With a RedPitaya bound, the maximum of a present error waveform is
pushed. -/
theorem errStage_value {cfg : Config} {st : SynchState} {inp : CycleInput}
    {w : List ℚ} {m : ℚ}
    (hb : cfg.prefix_redpitaya.isEmpty = false)
    (ha : inp.wave_err = .value w) (hm : npMax w = some m) :
    errStage cfg st inp =
      .ok { st with err_buff := pushBuf cfg.interlock_buff_length st.err_buff m } := by
  simp [errStage, hb, ha, hm]

/-- The supervisory stage mutates at most `TRACKING_ON`. -/
theorem superviseStage_fst_frame (cfg : Config) (b : Bool) (st : SynchState) :
    (superviseStage cfg b st).1.err_buff = st.err_buff ∧
    (superviseStage cfg b st).1.laser_amp_buff = st.laser_amp_buff ∧
    (superviseStage cfg b st).1.corr_buff = st.corr_buff ∧
    (superviseStage cfg b st).1.pvs.pll_err_tsh = st.pvs.pll_err_tsh ∧
    (superviseStage cfg b st).1.pvs.laser_amp_tsh = st.pvs.laser_amp_tsh ∧
    (superviseStage cfg b st).1.pvs.corr_avg = st.pvs.corr_avg ∧
    (superviseStage cfg b st).1.pvs.tracking_tsh = st.pvs.tracking_tsh ∧
    (superviseStage cfg b st).1.pvs.tracking_step = st.pvs.tracking_step := by
  simp only [superviseStage]
  split <;> simp

/-- The forced-off command is exactly the trip decision on the buffers as
they stand at evaluation time, gated on an active PLL and a bound
RedPitaya. -/
theorem superviseStage_forceOff (cfg : Config) (b : Bool) (st : SynchState) :
    (superviseStage cfg b st).2.forceOff =
      (b && interlockCheck cfg st.pvs st.err_buff st.laser_amp_buff &&
        !cfg.prefix_redpitaya.isEmpty) := rfl

/-- The published PLL view after supervision. -/
theorem superviseStage_pllFinal (cfg : Config) (b : Bool) (st : SynchState) :
    (superviseStage cfg b st).2.pllFinal =
      (b && !(b && interlockCheck cfg st.pvs st.err_buff st.laser_amp_buff)) := rfl

/-- The tracking flag in the output is the truthiness of `TRACKING_ON` as
left in the result state. -/
theorem superviseStage_trackingOn (cfg : Config) (b : Bool) (st : SynchState) :
    (superviseStage cfg b st).2.trackingOn =
      pyTruthy (superviseStage cfg b st).1.pvs.tracking_on := rfl

/-- The motor command in the output is the tracking decision on the result
state's PV table. -/
theorem superviseStage_motorStep (cfg : Config) (b : Bool) (st : SynchState) :
    (superviseStage cfg b st).2.motorStep =
      trackingCheck cfg (superviseStage cfg b st).1.pvs := rfl

/-- A PLL view that ends the cycle off has zeroed `TRACKING_ON`, so the
output tracking flag is off as well. -/
theorem superviseStage_off_tracking (cfg : Config) (b : Bool) (st : SynchState)
    (h : (superviseStage cfg b st).2.pllFinal = false) :
    (superviseStage cfg b st).2.trackingOn = false := by
  have hfl : (b && !(b && interlockCheck cfg st.pvs st.err_buff st.laser_amp_buff)) = false := by
    rw [← superviseStage_pllFinal]
    exact h
  rw [superviseStage_trackingOn]
  simp only [superviseStage, hfl, Bool.false_eq_true, if_false]
  simp [pyTruthy]

/-- Decomposition of a completed cycle into its five stages. -/
theorem processCycle_ok_inv {cfg : Config} {st : SynchState} {inp : CycleInput}
    {r : SynchState × CycleOutput}
    (h : processCycle cfg st inp = .ok r) :
    ∃ st1 pll_on st3 st4 st5,
      pllStage cfg st inp = .ok (st1, pll_on) ∧
      corrStage cfg (resetStage st1) inp = .ok st3 ∧
      ampStage cfg st3 inp = .ok st4 ∧
      errStage cfg st4 inp = .ok st5 ∧
      superviseStage cfg pll_on st5 = r := by
  unfold processCycle at h
  split at h
  · simp at h
  · next st1 pll_on heq1 =>
      split at h
      · simp at h
      · next st3 heq2 =>
          split at h
          · simp at h
          · next st4 heq3 =>
              split at h
              · simp at h
              · next st5 heq4 =>
                  exact ⟨st1, pll_on, st3, st4, st5, heq1, heq2, heq3, heq4,
                    Except.ok.inj h⟩

/-- Decomposition of a raising cycle: exactly one stage failed, and every
earlier stage completed. -/
theorem processCycle_error_inv {cfg : Config} {st : SynchState} {inp : CycleInput}
    {s : SynchState} {e : String}
    (h : processCycle cfg st inp = .error (s, e)) :
    pllStage cfg st inp = .error (s, e) ∨
    ∃ st1 pll_on,
      pllStage cfg st inp = .ok (st1, pll_on) ∧
      (corrStage cfg (resetStage st1) inp = .error (s, e) ∨
       ∃ st3, corrStage cfg (resetStage st1) inp = .ok st3 ∧
         (ampStage cfg st3 inp = .error (s, e) ∨
          ∃ st4, ampStage cfg st3 inp = .ok st4 ∧
            errStage cfg st4 inp = .error (s, e))) := by
  unfold processCycle at h
  split at h
  · next ee heq1 =>
      left
      rw [heq1, Except.error.inj h]
  · next st1 pll_on heq1 =>
      right
      refine ⟨st1, pll_on, heq1, ?_⟩
      split at h
      · next ee heq2 =>
          left
          rw [heq2, Except.error.inj h]
      · next st3 heq2 =>
          right
          refine ⟨st3, heq2, ?_⟩
          split at h
          · next ee heq3 =>
              left
              rw [heq3, Except.error.inj h]
          · next st4 heq3 =>
              right
              refine ⟨st4, heq3, ?_⟩
              split at h
              · next ee heq4 =>
                  rw [heq4, Except.error.inj h]
              · simp at h

/-- No tracking decision is made while `TRACKING_ON` is falsy. -/
theorem trackingCheck_not_on {cfg : Config} {pvs : PVS}
    (h : pyTruthy pvs.tracking_on = false) : trackingCheck cfg pvs = none := by
  simp [trackingCheck, h]

/-- No step is issued when the correction average sits at or inside the
deadband. -/
theorem trackingCheck_le {cfg : Config} {pvs : PVS}
    (h : ratAbs (pyOr pvs.corr_avg 0) ≤ pyOr pvs.tracking_tsh (1/10)) :
    trackingCheck cfg pvs = none := by
  simp only [trackingCheck]
  split
  · rw [if_neg]
    intro hc
    exact absurd hc.1 (not_lt.mpr h)
  · rfl

/-- No step is issued when no motor binding is configured. -/
theorem trackingCheck_no_motor {cfg : Config} {pvs : PVS}
    (h : cfg.prefix_motor.isEmpty = true) : trackingCheck cfg pvs = none := by
  simp only [trackingCheck]
  split
  · rw [if_neg]
    intro hc
    exact hc.2 h
  · rfl

/-- Outside the deadband and with a motor bound, the step has the default
or configured magnitude and the sign of the correction average's branch. -/
theorem trackingCheck_some {cfg : Config} {pvs : PVS}
    (h1 : pyTruthy pvs.tracking_on = true)
    (h2 : pyOr pvs.tracking_tsh (1/10) < ratAbs (pyOr pvs.corr_avg 0))
    (h3 : cfg.prefix_motor.isEmpty = false) :
    trackingCheck cfg pvs =
      some (if 0 < pyOr pvs.corr_avg 0
            then pyOr pvs.tracking_step (1/100)
            else -pyOr pvs.tracking_step (1/100)) := by
  simp only [trackingCheck, h1, if_true]
  rw [if_pos ⟨h2, by simp [h3]⟩]

/-- A completed cycle leaves the four gating constants untouched, and each
interlock buffer either untouched or extended by one push. -/
theorem processCycle_ok_frames {cfg : Config} {st : SynchState} {inp : CycleInput}
    {st' : SynchState} {out : CycleOutput}
    (h : processCycle cfg st inp = .ok (st', out)) :
    st'.pvs.pll_err_tsh = st.pvs.pll_err_tsh ∧
    st'.pvs.laser_amp_tsh = st.pvs.laser_amp_tsh ∧
    st'.pvs.tracking_tsh = st.pvs.tracking_tsh ∧
    st'.pvs.tracking_step = st.pvs.tracking_step ∧
    (st'.err_buff = st.err_buff ∨
      ∃ m, st'.err_buff = pushBuf cfg.interlock_buff_length st.err_buff m) ∧
    (st'.laser_amp_buff = st.laser_amp_buff ∨
      ∃ v, st'.laser_amp_buff = pushBuf cfg.interlock_buff_length st.laser_amp_buff v) := by
  obtain ⟨st1, pll_on, st3, st4, st5, h1, h2, h3, h4, h5⟩ := processCycle_ok_inv h
  have e1 := pllStage_ok_state h1
  subst e1
  obtain ⟨r1, r2, r3, r4, r5, r6, r7⟩ := resetStage_frame
    { st with pvs := { st.pvs with pll_on := some (if pll_on then 1 else 0) } }
  obtain ⟨c1, c2, c3, c4, c5, c6, c7⟩ := corrStage_ok_frame h2
  obtain ⟨a1, a2, a3, a4⟩ := ampStage_ok_frame h3
  obtain ⟨f1, f2, f3, f4⟩ := errStage_ok_frame h4
  obtain ⟨s1, s2, s3, s4, s5, s6, s7, s8⟩ := superviseStage_fst_frame cfg pll_on st5
  rw [h5] at s1 s2 s4 s5 s6 s7 s8
  simp only at s1 s2 s4 s5 s6 s7 s8
  refine ⟨?_, ?_, ?_, ?_, ?_, ?_⟩
  · rw [s4, f3, a3, c3, r3]
  · rw [s5, f3, a3, c4, r4]
  · rw [s7, f3, a3, c6, r6]
  · rw [s8, f3, a3, c7, r7]
  · have herr4 : st4.err_buff = st.err_buff := by
      rw [a1, c1, r1]
    rcases f4 with hsame | ⟨m, hpush⟩
    · left
      rw [s1, hsame, herr4]
    · right
      exact ⟨m, by rw [s1, hpush, herr4]⟩
  · have hamp3 : st3.laser_amp_buff = st.laser_amp_buff := by
      rw [c2, r2]
    have hamp5 : st5.laser_amp_buff = st4.laser_amp_buff := f1
    rcases a4 with hsame | ⟨v, hpush⟩
    · left
      rw [s2, hamp5, hsame, hamp3]
    · right
      exact ⟨v, by rw [s2, hamp5, hpush, hamp3]⟩

/-- Per-cycle error-buffer law: a present error waveform pushes its
maximum, and nothing else ever touches the error buffer during a
completed cycle. -/
theorem processCycle_ok_err_push {cfg : Config} {st : SynchState} {inp : CycleInput}
    {st' : SynchState} {out : CycleOutput} {w : List ℚ} {m : ℚ}
    (hrp : cfg.prefix_redpitaya.isEmpty = false)
    (hw : inp.wave_err = .value w) (hm : npMax w = some m)
    (h : processCycle cfg st inp = .ok (st', out)) :
    st'.err_buff = pushBuf cfg.interlock_buff_length st.err_buff m := by
  obtain ⟨st1, pll_on, st3, st4, st5, h1, h2, h3, h4, h5⟩ := processCycle_ok_inv h
  rw [errStage_value hrp hw hm] at h4
  have hst5 := (Except.ok.inj h4).symm
  have e1 := pllStage_ok_state h1
  subst e1
  obtain ⟨r1, _⟩ := resetStage_frame
    { st with pvs := { st.pvs with pll_on := some (if pll_on then 1 else 0) } }
  obtain ⟨c1, _⟩ := corrStage_ok_frame h2
  obtain ⟨a1, _⟩ := ampStage_ok_frame h3
  obtain ⟨s1, _⟩ := superviseStage_fst_frame cfg pll_on st5
  rw [h5] at s1
  simp only at s1
  rw [s1, hst5]
  simp only
  rw [a1, c1, r1]

/-- An absent error waveform leaves the error buffer of a completed cycle
untouched (no sentinel is pushed). -/
theorem processCycle_ok_err_absent {cfg : Config} {st : SynchState} {inp : CycleInput}
    {st' : SynchState} {out : CycleOutput}
    (hw : inp.wave_err = .absent)
    (h : processCycle cfg st inp = .ok (st', out)) :
    st'.err_buff = st.err_buff := by
  obtain ⟨st1, pll_on, st3, st4, st5, h1, h2, h3, h4, h5⟩ := processCycle_ok_inv h
  rw [errStage_absent hw] at h4
  have hst5 := (Except.ok.inj h4).symm
  have e1 := pllStage_ok_state h1
  subst e1
  obtain ⟨r1, _⟩ := resetStage_frame
    { st with pvs := { st.pvs with pll_on := some (if pll_on then 1 else 0) } }
  obtain ⟨c1, _⟩ := corrStage_ok_frame h2
  obtain ⟨a1, _⟩ := ampStage_ok_frame h3
  obtain ⟨s1, _⟩ := superviseStage_fst_frame cfg pll_on st5
  rw [h5] at s1
  simp only at s1
  rw [s1, hst5, a1, c1, r1]

/-- An absent amplitude read leaves the amplitude buffer of a completed
cycle untouched (no sentinel is pushed). -/
theorem processCycle_ok_amp_absent {cfg : Config} {st : SynchState} {inp : CycleInput}
    {st' : SynchState} {out : CycleOutput}
    (ha : inp.laser_amp = .absent)
    (h : processCycle cfg st inp = .ok (st', out)) :
    st'.laser_amp_buff = st.laser_amp_buff := by
  obtain ⟨st1, pll_on, st3, st4, st5, h1, h2, h3, h4, h5⟩ := processCycle_ok_inv h
  rw [ampStage_absent ha] at h3
  have hst4 := (Except.ok.inj h3).symm
  subst hst4
  have e1 := pllStage_ok_state h1
  subst e1
  obtain ⟨r1, r2, _⟩ := resetStage_frame
    { st with pvs := { st.pvs with pll_on := some (if pll_on then 1 else 0) } }
  obtain ⟨c1, c2, _⟩ := corrStage_ok_frame h2
  obtain ⟨f1, _⟩ := errStage_ok_frame h4
  obtain ⟨s1, s2, _⟩ := superviseStage_fst_frame cfg pll_on st5
  rw [h5] at s2
  simp only at s2
  rw [s2, f1, c2, r2]

/-- With the amplitude PV bound, a present amplitude sample is pushed into
the amplitude buffer of a completed cycle. -/
theorem processCycle_ok_amp_push {cfg : Config} {st : SynchState} {inp : CycleInput}
    {st' : SynchState} {out : CycleOutput} {v : ℚ}
    (hb : cfg.pv_laser_amp_llrf.isEmpty = false)
    (ha : inp.laser_amp = .value v)
    (h : processCycle cfg st inp = .ok (st', out)) :
    st'.laser_amp_buff = pushBuf cfg.interlock_buff_length st.laser_amp_buff v := by
  obtain ⟨st1, pll_on, st3, st4, st5, h1, h2, h3, h4, h5⟩ := processCycle_ok_inv h
  rw [ampStage_value hb ha] at h3
  have hst4 := (Except.ok.inj h3).symm
  have e1 := pllStage_ok_state h1
  subst e1
  obtain ⟨r1, r2, _⟩ := resetStage_frame
    { st with pvs := { st.pvs with pll_on := some (if pll_on then 1 else 0) } }
  obtain ⟨c1, c2, _⟩ := corrStage_ok_frame h2
  obtain ⟨f1, _⟩ := errStage_ok_frame h4
  obtain ⟨s1, s2, _⟩ := superviseStage_fst_frame cfg pll_on st5
  rw [h5] at s2
  simp only at s2
  rw [s2, f1, hst4]
  simp only
  rw [c2, r2]

/-- With the PLL reporting itself on, a completed cycle forces the PLL off
exactly when one of the two windows, as it stands after this cycle's
pushes, is full of strict threshold violations. -/
theorem processCycle_forceOff_iff {cfg : Config} {st : SynchState} {inp : CycleInput}
    {st' : SynchState} {out : CycleOutput}
    (hrp : cfg.prefix_redpitaya.isEmpty = false)
    (hpll : inp.pll_read = .value true)
    (herr : st.err_buff.length ≤ cfg.interlock_buff_length)
    (hamp : st.laser_amp_buff.length ≤ cfg.interlock_buff_length)
    (h : processCycle cfg st inp = .ok (st', out)) :
    (out.forceOff = true ↔
      (st'.err_buff.length = cfg.interlock_buff_length ∧
        ∀ e ∈ st'.err_buff, pyOr st'.pvs.pll_err_tsh 1 < e) ∨
      (st'.laser_amp_buff.length = cfg.interlock_buff_length ∧
        ∀ a ∈ st'.laser_amp_buff, a < pyOr st'.pvs.laser_amp_tsh 0)) := by
  obtain ⟨hts1, hts2, _, _, herr', hamp'⟩ := processCycle_ok_frames h
  obtain ⟨st1, pll_on, st3, st4, st5, h1, h2, h3, h4, h5⟩ := processCycle_ok_inv h
  have hb : pll_on = true := by
    have hv := pllStage_ok_value hrp h1
    rw [hpll] at hv
    exact (Read.value.inj hv).symm
  subst hb
  have hf : out.forceOff = interlockCheck cfg st5.pvs st5.err_buff st5.laser_amp_buff := by
    have hfo := superviseStage_forceOff cfg true st5
    rw [h5] at hfo
    simpa [hrp] using hfo
  obtain ⟨s1, s2, s3, s4, s5, _⟩ := superviseStage_fst_frame cfg true st5
  rw [h5] at s1 s2 s4 s5
  simp only at s1 s2 s4 s5
  have hel : st'.err_buff.length ≤ cfg.interlock_buff_length := by
    rcases herr' with hh | ⟨m, hh⟩
    · rw [hh]
      exact herr
    · rw [hh]
      exact pushBuf_length_le _ _ _ herr
  have hal : st'.laser_amp_buff.length ≤ cfg.interlock_buff_length := by
    rcases hamp' with hh | ⟨v, hh⟩
    · rw [hh]
      exact hamp
    · rw [hh]
      exact pushBuf_length_le _ _ _ hamp
  rw [hf, s1, s2, s4, s5]
  rw [s1] at hel
  rw [s2] at hal
  exact interlockCheck_iff cfg st5.pvs st5.err_buff st5.laser_amp_buff hel hal

/-- C1: for every completed cycle in which the protected subsystem reports
itself active (the PLL status read returns true), the interlock engages and
forces the subsystem off if and only if the error buffer is full and every
one of its `interlock_buff_length` samples is strictly greater than the
error threshold, or the amplitude buffer is full and every one of its
samples is strictly less than the amplitude threshold; a single
non-violating sample anywhere in a buffer prevents engagement from that
buffer. -/
theorem C1_interlock_iff (cfg : Config) (st : SynchState) (inp : CycleInput)
    (st' : SynchState) (out : CycleOutput)
    (hrp : cfg.prefix_redpitaya.isEmpty = false)
    (hpll : inp.pll_read = Read.value true)
    (herr : st.err_buff.length ≤ cfg.interlock_buff_length)
    (hamp : st.laser_amp_buff.length ≤ cfg.interlock_buff_length)
    (h : processCycle cfg st inp = .ok (st', out)) :
    (out.forceOff = true ↔
      (st'.err_buff.length = cfg.interlock_buff_length ∧
        ∀ e ∈ st'.err_buff, pyOr st'.pvs.pll_err_tsh 1 < e) ∨
      (st'.laser_amp_buff.length = cfg.interlock_buff_length ∧
        ∀ a ∈ st'.laser_amp_buff, a < pyOr st'.pvs.laser_amp_tsh 0)) :=
  processCycle_forceOff_iff hrp hpll herr hamp h

/-- Witness for C1 at a concrete tripping cycle: window 2, prior sample 2,
new sample 3, default threshold 1. -/
theorem C1_interlock_iff_witness :
    (w1out.forceOff = true ↔
      (w1stF.err_buff.length = cfgRP.interlock_buff_length ∧
        ∀ e ∈ w1stF.err_buff, pyOr w1stF.pvs.pll_err_tsh 1 < e) ∨
      (w1stF.laser_amp_buff.length = cfgRP.interlock_buff_length ∧
        ∀ a ∈ w1stF.laser_amp_buff, a < pyOr w1stF.pvs.laser_amp_tsh 0)) :=
  C1_interlock_iff cfgRP w1st inpErr3 w1stF w1out (by decide) (by decide)
    (by decide) (by decide) (by decide)

/-- From an already-off PLL, one closed-loop cycle leaves the PLL off. -/
theorem plantStep_false (cfg : Config) (st : SynchState) (inp : CycleInput) :
    (plantStep cfg (false, st) inp).1 = false := by
  unfold plantStep
  split
  · rfl
  · simp

/-- From an already-off PLL, any number of closed-loop cycles leaves the
PLL off, whatever the buffers hold. -/
theorem plantRun_false (cfg : Config) :
    ∀ (inps : List CycleInput) (st : SynchState),
      (plantRun cfg (false, st) inps).1 = false
  | [], _ => rfl
  | inp :: rest, st => by
      unfold plantRun
      simp only [List.foldl_cons]
      rcases hps : plantStep cfg (false, st) inp with ⟨b, st2⟩
      have hb : b = false := by
        have hh := plantStep_false cfg st inp
        rw [hps] at hh
        exact hh
      subst hb
      have hrec := plantRun_false cfg rest st2
      unfold plantRun at hrec
      exact hrec

/-- C2: the interlock is a latch.  Once the subsystem has been forced off
(the closed-loop PLL state is false), every subsequent cycle leaves it
off, whatever samples the buffers hold — compliance never re-enables it;
only an action outside the loop (an external re-enable) could.  In
particular a cycle that engages the interlock starts such a permanently-off
suffix. -/
theorem C2_latch (cfg : Config) (pll : Bool) (st : SynchState) (inp : CycleInput)
    (inps : List CycleInput) :
    (plantRun cfg (false, st) inps).1 = false ∧
    ((plantStep cfg (pll, st) inp).1 = false →
      (plantRun cfg (plantStep cfg (pll, st) inp) inps).1 = false) := by
  refine ⟨plantRun_false cfg inps st, fun hoff => ?_⟩
  rcases hps : plantStep cfg (pll, st) inp with ⟨b, st2⟩
  rw [hps] at hoff
  simp only at hoff
  subst hoff
  exact plantRun_false cfg inps st2

/-- Witness for C2: a concrete cycle that trips the window-1 interlock,
followed by a quiet cycle that leaves the PLL off. -/
theorem C2_latch_witness :
    (plantRun cfgL1 (plantStep cfgL1 (true, stEmpty) inpErr3) [inpQuiet]).1 = false :=
  (C2_latch cfgL1 true stEmpty inpErr3 [inpQuiet]).2 (by decide)

/-- C4: a cycle whose processing raises is caught at the loop boundary:
status becomes ERROR, a diagnostic message carrying the error is
published, the cycle counter is not incremented, and the loop goes on to
the next scheduled cycle instead of terminating. -/
theorem C4_error_isolation (cfg : Config) (ts : TaskState) (inp : CycleInput)
    (s : SynchState) (e : String)
    (hen : pyTruthy ts.synch.pvs.enable = true)
    (h : processCycle cfg ts.synch inp = .error (s, e)) :
    (runIteration cfg ts inp).status = TaskStatus.error ∧
    (runIteration cfg ts inp).message = "Error: " ++ e ∧
    (runIteration cfg ts inp).cycle = ts.cycle ∧
    ∀ rest, runLoop cfg ts (inp :: rest) = runLoop cfg (runIteration cfg ts inp) rest := by
  refine ⟨?_, ?_, ?_, fun rest => rfl⟩ <;> simp [runIteration, hen, h]

/-- Witness for C4 at a concrete raising PLL-status read. -/
theorem C4_error_isolation_witness :
    (runIteration cfgRP ts7 inpRaise).status = TaskStatus.error ∧
    (runIteration cfgRP ts7 inpRaise).message = "Error: caget DIGITAL_P4_STATE_STATUS failed" ∧
    (runIteration cfgRP ts7 inpRaise).cycle = ts7.cycle :=
  have hc := C4_error_isolation cfgRP ts7 inpRaise ts7.synch
    "caget DIGITAL_P4_STATE_STATUS failed" (by decide) (by decide)
  ⟨hc.1, hc.2.1, hc.2.2.1⟩

/-- No cycle stage after the PLL-status read fails: helper equation when
the PLL stage itself raises. -/
theorem processCycle_pll_error {cfg : Config} {st : SynchState} {inp : CycleInput}
    {p : SynchState × String}
    (h : pllStage cfg st inp = .error p) :
    processCycle cfg st inp = .error p := by
  unfold processCycle
  rw [h]

/-- C3 counterexample: tracking enabled, PLL on, no interlock trip, and a
correction average of 5 strictly outside the (default 0.1) deadband — yet
no actuation step is issued, because no motor binding is configured. -/
theorem C3_counterexample :
    processCycle cfgRP c3st c3inp = .ok (c3stF, c3outNo) ∧
    c3outNo.trackingOn = true ∧ c3outNo.pllFinal = true ∧
    c3outNo.forceOff = false ∧
    pyOr c3stF.pvs.tracking_tsh (1/10) < ratAbs (pyOr c3stF.pvs.corr_avg 0) ∧
    c3outNo.motorStep = none := by decide

/-- C3 (amended): in a completed cycle no step is issued while the
interlock holds the PLL off or tracking is disabled; with tracking on, no
step is issued at or inside the deadband boundary or without a motor
binding, and with a motor binding a step is issued exactly when the
correction-average magnitude strictly exceeds the deadband, the step being
`tracking_step` for a positive average and `-tracking_step` otherwise. -/
theorem C3_tracking (cfg : Config) (st : SynchState) (inp : CycleInput)
    (st' : SynchState) (out : CycleOutput)
    (h : processCycle cfg st inp = .ok (st', out)) :
    (out.pllFinal = false → out.motorStep = none) ∧
    (out.trackingOn = false → out.motorStep = none) ∧
    (out.trackingOn = true →
      (ratAbs (pyOr st'.pvs.corr_avg 0) ≤ pyOr st'.pvs.tracking_tsh (1/10) →
        out.motorStep = none) ∧
      (cfg.prefix_motor.isEmpty = true → out.motorStep = none) ∧
      (pyOr st'.pvs.tracking_tsh (1/10) < ratAbs (pyOr st'.pvs.corr_avg 0) →
        cfg.prefix_motor.isEmpty = false →
        out.motorStep = some (if 0 < pyOr st'.pvs.corr_avg 0
                              then pyOr st'.pvs.tracking_step (1/100)
                              else -pyOr st'.pvs.tracking_step (1/100)))) := by
  obtain ⟨st1, pll_on, st3, st4, st5, h1, h2, h3, h4, h5⟩ := processCycle_ok_inv h
  have hms : out.motorStep = trackingCheck cfg st'.pvs := by
    have hh := superviseStage_motorStep cfg pll_on st5
    rw [h5] at hh
    exact hh
  have hto : out.trackingOn = pyTruthy st'.pvs.tracking_on := by
    have hh := superviseStage_trackingOn cfg pll_on st5
    rw [h5] at hh
    exact hh
  refine ⟨?_, ?_, fun htOn => ⟨?_, ?_, ?_⟩⟩
  · intro hpf
    have hoff := superviseStage_off_tracking cfg pll_on st5 (by rw [h5]; exact hpf)
    rw [h5] at hoff
    rw [hms]
    apply trackingCheck_not_on
    rw [← hto]
    exact hoff
  · intro hoff
    rw [hms]
    apply trackingCheck_not_on
    rw [← hto]
    exact hoff
  · intro hle
    rw [hms]
    exact trackingCheck_le hle
  · intro hm
    rw [hms]
    exact trackingCheck_no_motor hm
  · intro hgt hm
    rw [hms]
    refine trackingCheck_some ?_ hgt hm
    rw [← hto]
    exact htOn

/-- Witness for C3 at a concrete stepping cycle: motor bound, tracking on,
correction average 5, default deadband and step. -/
theorem C3_tracking_witness :
    c3outGo.motorStep = some (if 0 < pyOr c3stF.pvs.corr_avg 0
                              then pyOr c3stF.pvs.tracking_step (1/100)
                              else -pyOr c3stF.pvs.tracking_step (1/100)) :=
  ((C3_tracking cfgRPM c3st c3inp c3stF c3outGo (by decide)).2.2 (by decide)).2.2
    (by decide) (by decide)

/-- C5 counterexample: a cycle whose error-waveform acquisition raises
after the amplitude read succeeded is not atomic — at the exception point
the amplitude buffer has already grown by the new sample, so the pre-cycle
state is not "unchanged except that no new sample is appended". -/
theorem C5_counterexample :
    processCycle cfgRPA stEmpty c5inp = .error (c5stErr, "caget IN1_DATA_MONITOR failed") ∧
    c5stErr.laser_amp_buff = [5] ∧ stEmpty.laser_amp_buff = [] := by decide

/-- C5 (amended): a raising cycle never increments the cycle counter and
never grows the error buffer; mutations committed before the raise point
persist (they are not rolled back), and when the very first acquisition
(the PLL status read) raises with a RedPitaya bound, the entire internal
state is left unchanged. -/
theorem C5_failed_cycle_frame (cfg : Config) (ts : TaskState) (inp : CycleInput)
    (s : SynchState) (e : String)
    (hen : pyTruthy ts.synch.pvs.enable = true)
    (h : processCycle cfg ts.synch inp = .error (s, e)) :
    (runIteration cfg ts inp).cycle = ts.cycle ∧
    (runIteration cfg ts inp).synch = s ∧
    s.err_buff = ts.synch.err_buff ∧
    (inp.pll_read = Read.raise → cfg.prefix_redpitaya.isEmpty = false →
      s = ts.synch) := by
  refine ⟨by simp [runIteration, hen, h], by simp [runIteration, hen, h], ?_, ?_⟩
  · rcases processCycle_error_inv h with h0 | ⟨st1, pll_on, h1, h0⟩
    · rw [pllStage_error_state h0]
    · have e1 := pllStage_ok_state h1
      subst e1
      rcases h0 with h0 | ⟨st3, h2, h0⟩
      · rw [corrStage_error_state h0, (resetStage_frame _).1]
      · rcases h0 with h0 | ⟨st4, h3, h0⟩
        · rw [ampStage_error_state h0, (corrStage_ok_frame h2).1,
              (resetStage_frame _).1]
        · rw [errStage_error_state h0, (ampStage_ok_frame h3).1,
              (corrStage_ok_frame h2).1, (resetStage_frame _).1]
  · intro hr hrp
    have hpe := processCycle_pll_error (@pllStage_raise cfg ts.synch inp hrp hr)
    rw [hpe] at h
    simp only [Except.error.injEq, Prod.mk.injEq] at h
    exact h.1.symm

/-- Witness for C5 at a concrete raising PLL-status read: counter and
state both untouched. -/
theorem C5_failed_cycle_frame_witness :
    (runIteration cfgRP ts7 inpRaise).cycle = ts7.cycle ∧
    (runIteration cfgRP ts7 inpRaise).synch = ts7.synch :=
  have hc := C5_failed_cycle_frame cfgRP ts7 inpRaise ts7.synch
    "caget DIGITAL_P4_STATE_STATUS failed" (by decide) (by decide)
  ⟨hc.1, hc.2.1⟩

/-- C6: in a completed cycle an absent sample leaves its buffer exactly as
it was (no zero or sentinel is substituted), while a present sample still
updates its own buffer: the amplitude push and the error push are
independent. -/
theorem C6_absent_sample (cfg : Config) (st : SynchState) (inp : CycleInput)
    (st' : SynchState) (out : CycleOutput)
    (h : processCycle cfg st inp = .ok (st', out)) :
    (inp.laser_amp = Read.absent → st'.laser_amp_buff = st.laser_amp_buff) ∧
    (inp.wave_err = Read.absent → st'.err_buff = st.err_buff) ∧
    (cfg.pv_laser_amp_llrf.isEmpty = false → ∀ v, inp.laser_amp = Read.value v →
      st'.laser_amp_buff = pushBuf cfg.interlock_buff_length st.laser_amp_buff v) ∧
    (cfg.prefix_redpitaya.isEmpty = false → ∀ w m, inp.wave_err = Read.value w →
      npMax w = some m →
      st'.err_buff = pushBuf cfg.interlock_buff_length st.err_buff m) :=
  ⟨fun ha => processCycle_ok_amp_absent ha h,
   fun hw => processCycle_ok_err_absent hw h,
   fun hb v ha => processCycle_ok_amp_push hb ha h,
   fun hb w m hw hm => processCycle_ok_err_push hb hw hm h⟩

/-- Witness for C6: a cycle with the amplitude read absent and the error
waveform present leaves the amplitude buffer empty and pushes the error
maximum. -/
theorem C6_absent_sample_witness :
    w6stF.laser_amp_buff = stEmpty.laser_amp_buff ∧
    w6stF.err_buff = pushBuf cfgRPA.interlock_buff_length stEmpty.err_buff 3 :=
  have hc := C6_absent_sample cfgRPA stEmpty inpErr3 w6stF w6out (by decide)
  ⟨hc.1 (by decide), hc.2.2.2 (by decide) [3] 3 (by decide) (by decide)⟩

/-- Iterated pushes never grow a buffer beyond its capacity. -/
theorem pushMany_length_le (C : Nat) :
    ∀ (ws buff : List ℚ), buff.length ≤ C → (pushMany C buff ws).length ≤ C
  | [], _, h => h
  | w :: ws, buff, h =>
      pushMany_length_le C ws (pushBuf C buff w) (pushBuf_length_le C buff w h)

/-- C7: for every push sequence longer than the capacity, the
sliding-window buffer discipline shared by the correction, error and
amplitude buffers retains exactly the last `C` pushed values in order,
never holds more than `C` elements, and each overflowing push evicts
exactly the oldest element. -/
theorem C7_sliding_window (C : Nat) (buff vs : List ℚ)
    (hb : buff.length ≤ C) (hv : C < vs.length) :
    pushMany C buff vs = vs.drop (vs.length - C) ∧
    (pushMany C buff vs).length = C ∧
    (∀ ws : List ℚ, (pushMany C buff ws).length ≤ C) ∧
    (∀ (l : List ℚ) (v : ℚ), l.length = C → 1 ≤ C → pushBuf C l v = l.tail ++ [v]) := by
  have hmain : pushMany C buff vs = lastWindow C (buff ++ vs) :=
    pushMany_eq_lastWindow C vs buff hb
  have hdrop : lastWindow C (buff ++ vs) = vs.drop (vs.length - C) := by
    unfold lastWindow
    have h1 : (buff ++ vs).length - C = buff.length + (vs.length - C) := by
      simp
      omega
    rw [h1, ← List.drop_drop, List.drop_left]
  refine ⟨hmain.trans hdrop, ?_, fun ws => pushMany_length_le C ws buff hb, ?_⟩
  · rw [hmain.trans hdrop, List.length_drop]
    omega
  · intro l v hl hc
    simp only [pushBuf]
    rw [if_pos (by simp [hl])]
    rw [List.drop_append_of_le_length (by omega), List.drop_one]

/-- Witness for C7 at capacity 2 with pushes `[1, 2, 3]`. -/
theorem C7_sliding_window_witness :
    pushMany 2 ([] : List ℚ) [1, 2, 3] = [1, 2, 3].drop ([1, 2, 3].length - 2) ∧
    (pushMany 2 ([] : List ℚ) [1, 2, 3]).length = 2 :=
  have hc := C7_sliding_window 2 [] [1, 2, 3] (by decide) (by decide)
  ⟨hc.1, hc.2.1⟩

/-- A run that already raised yields no completed trace. -/
theorem foldl_okStep_none (cfg : Config) :
    ∀ (l : List CycleInput), l.foldl (okStep cfg) none = none
  | [] => rfl
  | _ :: l => foldl_okStep_none cfg l

/-- Trace lemma: over completed cycles each contributing an error sample,
the error buffer evolves by iterated pushes, the error threshold PV is
preserved, and the amplitude buffer stays within its window. -/
theorem runOk_err_trace (cfg : Config)
    (hrp : cfg.prefix_redpitaya.isEmpty = false) :
    ∀ {inps : List CycleInput} {ms : List ℚ},
      List.Forall₂ contributes inps ms →
      ∀ {st : SynchState} {a : Option CycleOutput}
        {stP : SynchState} {oP : Option CycleOutput},
        inps.foldl (okStep cfg) (some (st, a)) = some (stP, oP) →
        st.laser_amp_buff.length ≤ cfg.interlock_buff_length →
        stP.err_buff = pushMany cfg.interlock_buff_length st.err_buff ms ∧
        stP.pvs.pll_err_tsh = st.pvs.pll_err_tsh ∧
        stP.laser_amp_buff.length ≤ cfg.interlock_buff_length := by
  intro inps ms hf
  induction hf with
  | nil =>
      intro st a stP oP h ha
      simp only [List.foldl_nil, Option.some.injEq, Prod.mk.injEq] at h
      rw [← h.1]
      exact ⟨rfl, rfl, ha⟩
  | @cons inp m inps' ms' hR htail ih =>
      intro st a stP oP h ha
      simp only [List.foldl_cons] at h
      rcases hpc : processCycle cfg st inp with p | r
      · rw [show okStep cfg (some (st, a)) inp = none by simp [okStep, hpc]] at h
        rw [foldl_okStep_none cfg inps'] at h
        exact Option.noConfusion h
      · rcases r with ⟨st1, out1⟩
        rw [show okStep cfg (some (st, a)) inp = some (st1, some out1) by
              simp [okStep, hpc]] at h
        obtain ⟨hpll, w, hw, hm⟩ := hR
        have hpush := processCycle_ok_err_push hrp hw hm hpc
        obtain ⟨htsh, _, _, _, _, hampd⟩ := processCycle_ok_frames hpc
        have ha1 : st1.laser_amp_buff.length ≤ cfg.interlock_buff_length := by
          rcases hampd with hh | ⟨v, hh⟩
          · rw [hh]
            exact ha
          · rw [hh]
            exact pushBuf_length_le _ _ _ ha
        obtain ⟨ih1, ih2, ih3⟩ := ih h ha1
        refine ⟨?_, ih2.trans htsh, ih3⟩
        rw [ih1, hpush]
        rfl

/-- A sustained error-buffer fault trips at the `L`-th contributing cycle:
`L` consecutive completed active cycles, each pushing an error sample
strictly over the (defaulted, unchanged) error threshold, force the PLL
off on the last of them. -/
theorem sustained_err_trip (cfg : Config) (st : SynchState)
    (inps : List CycleInput) (lastInp : CycleInput)
    (ms : List ℚ) (mL : ℚ) (stF : SynchState) (outF : CycleOutput)
    (hrp : cfg.prefix_redpitaya.isEmpty = false)
    (herr : st.err_buff.length ≤ cfg.interlock_buff_length)
    (hamp : st.laser_amp_buff.length ≤ cfg.interlock_buff_length)
    (hlen : ms.length + 1 = cfg.interlock_buff_length)
    (hpair : List.Forall₂ contributes inps ms)
    (hlast : contributes lastInp mL)
    (hvio : ∀ m ∈ ms ++ [mL], pyOr st.pvs.pll_err_tsh 1 < m)
    (hrun : runOk cfg st (inps ++ [lastInp]) = some (stF, some outF)) :
    outF.forceOff = true := by
  unfold runOk at hrun
  rw [List.foldl_append] at hrun
  simp only [List.foldl_cons, List.foldl_nil] at hrun
  rcases hacc : inps.foldl (okStep cfg) (some (st, none)) with _ | ⟨stP, oP⟩
  · rw [hacc] at hrun
    simp [okStep] at hrun
  · rw [hacc] at hrun
    rcases hpc : processCycle cfg stP lastInp with p | r
    · rw [show okStep cfg (some (stP, oP)) lastInp = none by simp [okStep, hpc]] at hrun
      exact Option.noConfusion hrun
    · rcases r with ⟨stF', outF'⟩
      rw [show okStep cfg (some (stP, oP)) lastInp = some (stF', some outF') by
            simp [okStep, hpc]] at hrun
      simp only [Option.some.injEq, Prod.mk.injEq] at hrun
      obtain ⟨hsF, hoF⟩ := hrun
      obtain ⟨hpll, w, hw, hm⟩ := hlast
      obtain ⟨he1, he2, he3⟩ := runOk_err_trace cfg hrp hpair hacc hamp
      have hpushL := processCycle_ok_err_push hrp hw hm hpc
      have hfull : stF'.err_buff = ms ++ [mL] := by
        rw [hpushL, he1]
        have hsnoc : pushBuf cfg.interlock_buff_length
            (pushMany cfg.interlock_buff_length st.err_buff ms) mL =
            pushMany cfg.interlock_buff_length st.err_buff (ms ++ [mL]) := by
          unfold pushMany
          rw [List.foldl_append]
          rfl
        rw [hsnoc, pushMany_eq_lastWindow _ _ _ herr]
        unfold lastWindow
        have hL : (st.err_buff ++ (ms ++ [mL])).length - cfg.interlock_buff_length
            = st.err_buff.length := by
          simp
          omega
        rw [hL, ← List.append_assoc]
        have := List.drop_left (st.err_buff) (ms ++ [mL])
        rw [← List.append_assoc] at this
        exact this
      have herrP : stP.err_buff.length ≤ cfg.interlock_buff_length := by
        rw [he1]
        exact pushMany_length_le cfg.interlock_buff_length ms st.err_buff herr
      have hiff := processCycle_forceOff_iff hrp hpll herrP he3 hpc
      rw [← hoF, hiff]
      left
      constructor
      · rw [hfull]
        simp
        omega
      · intro e he
        rw [hfull] at he
        have htshL := (processCycle_ok_frames hpc).1
        rw [htshL, he2]
        exact hvio e he

/-- Trace lemma, amplitude side: over completed cycles each contributing
an amplitude sample, the amplitude buffer evolves by iterated pushes, the
amplitude threshold PV is preserved, and the error buffer stays within
its window. -/
theorem runOk_amp_trace (cfg : Config)
    (hb : cfg.pv_laser_amp_llrf.isEmpty = false) :
    ∀ {inps : List CycleInput} {vs : List ℚ},
      List.Forall₂ contributesAmp inps vs →
      ∀ {st : SynchState} {a : Option CycleOutput}
        {stP : SynchState} {oP : Option CycleOutput},
        inps.foldl (okStep cfg) (some (st, a)) = some (stP, oP) →
        st.err_buff.length ≤ cfg.interlock_buff_length →
        stP.laser_amp_buff = pushMany cfg.interlock_buff_length st.laser_amp_buff vs ∧
        stP.pvs.laser_amp_tsh = st.pvs.laser_amp_tsh ∧
        stP.err_buff.length ≤ cfg.interlock_buff_length := by
  intro inps vs hf
  induction hf with
  | nil =>
      intro st a stP oP h he
      simp only [List.foldl_nil, Option.some.injEq, Prod.mk.injEq] at h
      rw [← h.1]
      exact ⟨rfl, rfl, he⟩
  | @cons inp v inps' vs' hR htail ih =>
      intro st a stP oP h he
      simp only [List.foldl_cons] at h
      rcases hpc : processCycle cfg st inp with p | r
      · rw [show okStep cfg (some (st, a)) inp = none by simp [okStep, hpc]] at h
        rw [foldl_okStep_none cfg inps'] at h
        exact Option.noConfusion h
      · rcases r with ⟨st1, out1⟩
        rw [show okStep cfg (some (st, a)) inp = some (st1, some out1) by
              simp [okStep, hpc]] at h
        obtain ⟨hpll, ha⟩ := hR
        have hpush := processCycle_ok_amp_push hb ha hpc
        obtain ⟨_, htsh, _, _, herrd, _⟩ := processCycle_ok_frames hpc
        have he1 : st1.err_buff.length ≤ cfg.interlock_buff_length := by
          rcases herrd with hh | ⟨m, hh⟩
          · rw [hh]
            exact he
          · rw [hh]
            exact pushBuf_length_le _ _ _ he
        obtain ⟨ih1, ih2, ih3⟩ := ih h he1
        refine ⟨?_, ih2.trans htsh, ih3⟩
        rw [ih1, hpush]
        rfl

/-- A sustained amplitude-buffer fault trips at the `L`-th contributing
cycle: `L` consecutive completed active cycles, each pushing an amplitude
sample strictly under the (defaulted, unchanged) amplitude threshold,
force the PLL off on the last of them. -/
theorem sustained_amp_trip (cfg : Config) (st : SynchState)
    (inps : List CycleInput) (lastInp : CycleInput)
    (vs : List ℚ) (vL : ℚ) (stF : SynchState) (outF : CycleOutput)
    (hrp : cfg.prefix_redpitaya.isEmpty = false)
    (hb : cfg.pv_laser_amp_llrf.isEmpty = false)
    (herr : st.err_buff.length ≤ cfg.interlock_buff_length)
    (hamp : st.laser_amp_buff.length ≤ cfg.interlock_buff_length)
    (hlen : vs.length + 1 = cfg.interlock_buff_length)
    (hpair : List.Forall₂ contributesAmp inps vs)
    (hlast : contributesAmp lastInp vL)
    (hvio : ∀ v ∈ vs ++ [vL], v < pyOr st.pvs.laser_amp_tsh 0)
    (hrun : runOk cfg st (inps ++ [lastInp]) = some (stF, some outF)) :
    outF.forceOff = true := by
  unfold runOk at hrun
  rw [List.foldl_append] at hrun
  simp only [List.foldl_cons, List.foldl_nil] at hrun
  rcases hacc : inps.foldl (okStep cfg) (some (st, none)) with _ | ⟨stP, oP⟩
  · rw [hacc] at hrun
    simp [okStep] at hrun
  · rw [hacc] at hrun
    rcases hpc : processCycle cfg stP lastInp with p | r
    · rw [show okStep cfg (some (stP, oP)) lastInp = none by simp [okStep, hpc]] at hrun
      exact Option.noConfusion hrun
    · rcases r with ⟨stF', outF'⟩
      rw [show okStep cfg (some (stP, oP)) lastInp = some (stF', some outF') by
            simp [okStep, hpc]] at hrun
      simp only [Option.some.injEq, Prod.mk.injEq] at hrun
      obtain ⟨hsF, hoF⟩ := hrun
      obtain ⟨hpll, ha⟩ := hlast
      obtain ⟨he1, he2, he3⟩ := runOk_amp_trace cfg hb hpair hacc herr
      have hpushL := processCycle_ok_amp_push hb ha hpc
      have hfull : stF'.laser_amp_buff = vs ++ [vL] := by
        rw [hpushL, he1]
        have hsnoc : pushBuf cfg.interlock_buff_length
            (pushMany cfg.interlock_buff_length st.laser_amp_buff vs) vL =
            pushMany cfg.interlock_buff_length st.laser_amp_buff (vs ++ [vL]) := by
          unfold pushMany
          rw [List.foldl_append]
          rfl
        rw [hsnoc, pushMany_eq_lastWindow _ _ _ hamp]
        unfold lastWindow
        have hL : (st.laser_amp_buff ++ (vs ++ [vL])).length - cfg.interlock_buff_length
            = st.laser_amp_buff.length := by
          simp
          omega
        rw [hL, ← List.append_assoc]
        have := List.drop_left (st.laser_amp_buff) (vs ++ [vL])
        rw [← List.append_assoc] at this
        exact this
      have hampP : stP.laser_amp_buff.length ≤ cfg.interlock_buff_length := by
        rw [he1]
        exact pushMany_length_le cfg.interlock_buff_length vs st.laser_amp_buff hamp
      have hiff := processCycle_forceOff_iff hrp hpll he3 hampP hpc
      rw [← hoF, hiff]
      right
      constructor
      · rw [hfull]
        simp
        omega
      · intro v hv
        rw [hfull] at hv
        have htshL := (processCycle_ok_frames hpc).2.1
        rw [htshL, he2]
        exact hvio v hv

/-- C8: for every run of `L` consecutive completed cycles in which the
subsystem is active and each cycle contributes a threshold-violating
sample to the same buffer — error samples strictly over the error
threshold, or amplitude samples strictly under the amplitude threshold —
the interlock trips no later than the `L`-th such cycle: that cycle
signals force-off. -/
theorem C8_sustained_fault :
    (∀ (cfg : Config) (st : SynchState) (inps : List CycleInput)
        (lastInp : CycleInput) (ms : List ℚ) (mL : ℚ)
        (stF : SynchState) (outF : CycleOutput),
        cfg.prefix_redpitaya.isEmpty = false →
        st.err_buff.length ≤ cfg.interlock_buff_length →
        st.laser_amp_buff.length ≤ cfg.interlock_buff_length →
        ms.length + 1 = cfg.interlock_buff_length →
        List.Forall₂ contributes inps ms →
        contributes lastInp mL →
        (∀ m ∈ ms ++ [mL], pyOr st.pvs.pll_err_tsh 1 < m) →
        runOk cfg st (inps ++ [lastInp]) = some (stF, some outF) →
        outF.forceOff = true) ∧
    (∀ (cfg : Config) (st : SynchState) (inps : List CycleInput)
        (lastInp : CycleInput) (vs : List ℚ) (vL : ℚ)
        (stF : SynchState) (outF : CycleOutput),
        cfg.prefix_redpitaya.isEmpty = false →
        cfg.pv_laser_amp_llrf.isEmpty = false →
        st.err_buff.length ≤ cfg.interlock_buff_length →
        st.laser_amp_buff.length ≤ cfg.interlock_buff_length →
        vs.length + 1 = cfg.interlock_buff_length →
        List.Forall₂ contributesAmp inps vs →
        contributesAmp lastInp vL →
        (∀ v ∈ vs ++ [vL], v < pyOr st.pvs.laser_amp_tsh 0) →
        runOk cfg st (inps ++ [lastInp]) = some (stF, some outF) →
        outF.forceOff = true) :=
  ⟨fun cfg st inps lastInp ms mL stF outF hrp herr hamp hlen hpair hlast hvio hrun =>
      sustained_err_trip cfg st inps lastInp ms mL stF outF
        hrp herr hamp hlen hpair hlast hvio hrun,
   fun cfg st inps lastInp vs vL stF outF hrp hb herr hamp hlen hpair hlast hvio hrun =>
      sustained_amp_trip cfg st inps lastInp vs vL stF outF
        hrp hb herr hamp hlen hpair hlast hvio hrun⟩

/-- Witness for C8 with window 1, exercising both trip paths: a single
over-threshold error sample trips, and a single under-threshold amplitude
sample trips. -/
theorem C8_sustained_fault_witness :
    w1out.forceOff = true ∧ wAmpOut.forceOff = true :=
  ⟨C8_sustained_fault.1 cfgL1 stEmpty [] inpErr3 [] 3 w8stF w1out
      (by decide) (by decide) (by decide) (by decide)
      List.Forall₂.nil ⟨rfl, [3], rfl, rfl⟩ (by decide) (by decide),
   C8_sustained_fault.2 cfgA1 wAmpSt [] inpAmp0 [] 0 wAmpStF wAmpOut
      (by decide) (by decide) (by decide) (by decide) (by decide)
      List.Forall₂.nil ⟨rfl, rfl⟩ (by decide) (by decide)⟩

/-- C9: the motor-movement callback ignores notifications during the first
10 cycles (cycle counter at most 10): nothing is logged and no switchoff
device is actuated; from cycle 11 onward every notification is logged and,
when the task is enabled, every switchoff device is commanded to 0. -/
theorem C9_grace_period :
    (∀ st : MotorTaskState, st.cycle ≤ 10 →
      motor_moved_callback st = { logged := false, switch_cmds := [] }) ∧
    (∀ st : MotorTaskState, 10 < st.cycle →
      (motor_moved_callback st).logged = true ∧
      (pyTruthy st.enable = true →
        (motor_moved_callback st).switch_cmds =
          st.switches.map (fun n => (n, (0 : ℚ))))) := by
  constructor
  · intro st hle
    unfold motor_moved_callback
    rw [if_neg (by omega)]
  · intro st hgt
    unfold motor_moved_callback
    rw [if_pos hgt]
    constructor
    · split <;> rfl
    · intro hen
      simp [hen]

/-- Witness for C9 at cycles 3 (suppressed) and 11 (acted upon). -/
theorem C9_grace_period_witness :
    motor_moved_callback { cycle := 3, enable := some 1, switches := ["SW"] } =
      { logged := false, switch_cmds := [] } ∧
    (motor_moved_callback { cycle := 11, enable := some 1, switches := ["SW"] }).switch_cmds =
      (["SW"].map (fun n => (n, (0 : ℚ)))) :=
  have hc := C9_grace_period
  ⟨hc.1 _ (by decide), (hc.2 _ (by decide)).2 (by decide)⟩

/-- The tracking decision depends on the PV table only through the
tracking flag, the correction average and the two defaulted constants. -/
theorem trackingCheck_congr (cfg : Config) (p q : PVS)
    (hton : p.tracking_on = q.tracking_on)
    (hcavg : p.corr_avg = q.corr_avg)
    (h3 : pyOr p.tracking_tsh (1/10) = pyOr q.tracking_tsh (1/10))
    (h4 : pyOr p.tracking_step (1/100) = pyOr q.tracking_step (1/100)) :
    trackingCheck cfg p = trackingCheck cfg q := by
  simp only [trackingCheck, hton, hcavg, h3, h4]

/-- The supervisory stage, observed through `obsSup`, depends on the four
defaultable constants only through their `pyOr`-defaulted values. -/
theorem superviseStage_congr (cfg : Config) (b : Bool) (st : SynchState) (p q : PVS)
    (hm : maskPvs p = maskPvs q)
    (h1 : pyOr p.pll_err_tsh 1 = pyOr q.pll_err_tsh 1)
    (h2 : pyOr p.laser_amp_tsh 0 = pyOr q.laser_amp_tsh 0)
    (h3 : pyOr p.tracking_tsh (1/10) = pyOr q.tracking_tsh (1/10))
    (h4 : pyOr p.tracking_step (1/100) = pyOr q.tracking_step (1/100)) :
    obsSup (superviseStage cfg b { st with pvs := p }) =
      obsSup (superviseStage cfg b { st with pvs := q }) := by
  have hton : p.tracking_on = q.tracking_on := by
    have hx := congrArg PVS.tracking_on hm
    exact hx
  have hcavg : p.corr_avg = q.corr_avg := by
    have hx := congrArg PVS.corr_avg hm
    exact hx
  have he1 : p.enable = q.enable := by
    have hx := congrArg PVS.enable hm
    exact hx
  have he2 : p.pll_on = q.pll_on := by
    have hx := congrArg PVS.pll_on hm
    exact hx
  have he3 : p.avg_reset = q.avg_reset := by
    have hx := congrArg PVS.avg_reset hm
    exact hx
  have he4 : p.avg_start = q.avg_start := by
    have hx := congrArg PVS.avg_start hm
    exact hx
  have he5 : p.avg_stop = q.avg_stop := by
    have hx := congrArg PVS.avg_stop hm
    exact hx
  have he6 : p.corr = q.corr := by
    have hx := congrArg PVS.corr hm
    exact hx
  have hcheck : interlockCheck cfg p st.err_buff st.laser_amp_buff =
      interlockCheck cfg q st.err_buff st.laser_amp_buff := by
    simp only [interlockCheck, h1, h2]
  have htc1 : trackingCheck cfg p = trackingCheck cfg q :=
    trackingCheck_congr cfg p q hton hcavg h3 h4
  have htc2 : trackingCheck cfg { p with tracking_on := some 0 } =
      trackingCheck cfg { q with tracking_on := some 0 } :=
    trackingCheck_congr cfg _ _ rfl hcavg h3 h4
  have hm0 : maskPvs { p with tracking_on := some 0 } =
      maskPvs { q with tracking_on := some 0 } := by
    simp only [maskPvs]
    rw [he1, he2, he3, he4, he5, he6, hcavg]
  simp only [superviseStage, obsSup, hcheck, hton]
  split
  · simp only [htc1, hton]
    rw [hm]
  · simp only [htc2, hton]
    rw [hm0]

/-- C10: in the interlock and tracking evaluation, a gating constant whose
PV read is falsy (absent or exactly 0 / 0.0) is silently replaced by its
built-in default — error threshold 1.0, amplitude threshold 0.0, tracking
deadband 0.1, tracking step 0.01 — so a configured exact zero is never
used as written (for the amplitude threshold the default coincides with
0.0): the observable supervision behavior with a falsy read equals the
behavior with the default value. -/
theorem C10_falsy_defaults (cfg : Config) (b : Bool) (st : SynchState) :
    (obsSup (superviseStage cfg b { st with pvs := { st.pvs with pll_err_tsh := none } }) =
       obsSup (superviseStage cfg b { st with pvs := { st.pvs with pll_err_tsh := some 1 } }) ∧
     obsSup (superviseStage cfg b { st with pvs := { st.pvs with pll_err_tsh := some 0 } }) =
       obsSup (superviseStage cfg b { st with pvs := { st.pvs with pll_err_tsh := some 1 } })) ∧
    (obsSup (superviseStage cfg b { st with pvs := { st.pvs with laser_amp_tsh := none } }) =
       obsSup (superviseStage cfg b { st with pvs := { st.pvs with laser_amp_tsh := some 0 } })) ∧
    (obsSup (superviseStage cfg b { st with pvs := { st.pvs with tracking_tsh := none } }) =
       obsSup (superviseStage cfg b { st with pvs := { st.pvs with tracking_tsh := some (1/10) } }) ∧
     obsSup (superviseStage cfg b { st with pvs := { st.pvs with tracking_tsh := some 0 } }) =
       obsSup (superviseStage cfg b { st with pvs := { st.pvs with tracking_tsh := some (1/10) } })) ∧
    (obsSup (superviseStage cfg b { st with pvs := { st.pvs with tracking_step := none } }) =
       obsSup (superviseStage cfg b { st with pvs := { st.pvs with tracking_step := some (1/100) } }) ∧
     obsSup (superviseStage cfg b { st with pvs := { st.pvs with tracking_step := some 0 } }) =
       obsSup (superviseStage cfg b { st with pvs := { st.pvs with tracking_step := some (1/100) } })) := by
  refine ⟨⟨?_, ?_⟩, ?_, ⟨?_, ?_⟩, ⟨?_, ?_⟩⟩ <;>
    apply superviseStage_congr <;> simp [maskPvs, pyOr]
